import Mathlib

/-!
Verification of the VaultManagerKV module (vault-manager repository).

The module operates on a hierarchical key-value secret store.  We embed the
module shallowly: the store is a flat association list from leaf paths to
documents, each store interaction is recorded as an explicit event, and each
`kv_*` method of `VaultManagerKV` becomes a function from the parsed
arguments and the store to an event trace plus an outcome.  The store-client
primitives (`VaultClient`, `lib.utils`) are not part of the repository
sources; they are modelled from the spec where noted.
-/

/-- Character-level model of Python `s.split("/")`: splits at every slash,
keeping empty segments, and yields one (possibly empty) segment for the
empty string. -/
def splitSegAux : List Char → List Char → List String
  | [], cur => [String.mk cur.reverse]
  | c :: cs, cur =>
      if c = '/' then String.mk cur.reverse :: splitSegAux cs []
      else splitSegAux cs (c :: cur)

/-- Model of Python `s.split("/")` on a whole string. -/
def splitSeg (s : String) : List String :=
  splitSegAux s.data []

/-- Model of Python `"/".join(segs)`. -/
def joinSeg : List String → String
  | [] => ""
  | [s] => s
  | s :: rest => s ++ "/" ++ joinSeg rest

/-- Modelled from the spec: `utils.list_to_string` (in `lib/utils`, not under
the repository sources) joins path segments with the `/` separator — the Path
Model represents a path as the slash-joined sequence of its segments. -/
def list_to_string (segs : List String) : String :=
  joinSeg segs

/-- A secret document: a mapping from string keys to string values
(SecretDocument in the spec). -/
abbrev Doc := List (String × String)

/-- The store: a flat mapping from leaf secret paths to documents
(TreeSnapshot of the whole instance). -/
abbrev Store := List (String × Doc)

/-- Modelled from the spec: segment-wise prefix containment of paths
(SecretPath equality and prefix-containment are segment-wise, so `a/b` is a
prefix of `a/b/c` but not of `a/bc`). -/
def underRoot (root p : String) : Bool :=
  (splitSeg root).isPrefixOf (splitSeg p)

/-- Modelled from the spec: `VaultClient.secrets_tree_list` (in
`lib/VaultClient`, not under the repository sources) — the Tree Lister
returns the flat set of leaf paths under the root, omitting any path equal
to or nested under an excluded prefix; a missing root yields the empty
result. -/
def secrets_tree_list (st : Store) (root : String) (excluded : List String) : List String :=
  (st.map Prod.fst).filter
    (fun p => underRoot root p && !(excluded.any (fun e => underRoot e p)))

/-- Modelled from the spec: `VaultClient.read` / `VaultClient.read_secret`
(not under the repository sources) returns the document stored at the path.
The spec makes a read of an absent path fail with NotFound; that failure
path is not modelled here — an absent path falls back to the empty
document — and every statement in this development applies the reader only
to paths produced by the store listing or to entries shown to be present,
where the fallback is dead. -/
def read_secret (st : Store) (p : String) : Doc :=
  ((st.find? (fun e => e.1 == p)).map Prod.snd).getD []

/-- Modelled from the spec: `VaultClient.write` (not under the repository
sources) overwrites the document at the path wholesale, creating the leaf
when absent. -/
def writeStore (st : Store) (p : String) (d : Doc) : Store :=
  if st.any (fun e => e.1 == p) then
    st.map (fun e => if e.1 == p then (p, d) else e)
  else
    st ++ [(p, d)]

/-- Modelled from the spec: `VaultClient.delete` (not under the repository
sources) removes the leaf at the path; deleting an absent path is a no-op. -/
def deleteStore (st : Store) (p : String) : Store :=
  st.filter (fun e => !(e.1 == p))

/-- First-occurrence deduplication, mirroring how assigning into a Python
dict keyed by path keeps one entry per path at its first position. -/
def dedupFirst (l : List String) : List String :=
  l.foldl (fun acc x => if acc.contains x then acc else acc ++ [x]) []

/-- One store interaction performed by the module.  Every store call carries
the address and token the performing client was authenticated with. -/
inductive Event where
  | connect (addr token : String)
  | listEv (addr token path : String)
  | readEv (addr token path : String)
  | writeEv (addr token path : String) (doc : Doc)
  | deleteEv (addr token path : String)
  | logErr (msg : String)
deriving DecidableEq

/-- The exceptions raised by the module: `ValueError` carries the list of
missing argument names; `AttributeError` carries its message. -/
inductive VMError where
  | valueError (missing : List String)
  | attributeError (msg : String)
deriving DecidableEq

/-- Result of one mutating module operation: the events performed and either
the final store or the raised exception. -/
structure Outcome where
  events : List Event
  result : Except VMError Store

/-- The parsed command-line arguments (`self.kwargs`), restricted to the
fields the KV module reads.  The two-argument options are pairs, the
multi-argument options lists; `none` is an option that was not supplied. -/
structure KwArgs where
  vault_addr : Option String
  vault_token : Option String
  vault_target_addr : Option String
  vault_target_token : Option String
  copy_path : Option (String × String)
  copy_secret : Option (String × String)
  delete : Option (List String)
  count : Option (List String)
  find_duplicates : Option (List String)
  secrets_tree : Option (List String)
  exclude : Option (List String)
deriving DecidableEq

/-- An address argument is missing when absent or the empty string (the
source excludes `None` and the empty string for addresses). -/
def addrMissing : Option String → Bool
  | none => true
  | some s => s == ""

/-- A token argument is missing when absent (the source excludes `None` and
`False` for tokens, so an empty-string token passes). -/
def tokenMissing : Option String → Bool
  | none => true
  | some _ => false

/-- Modelled from the spec: `utils.keys_exists_in_dict` (in `lib/utils`, not
under the repository sources) returns the required keys whose value is
absent or excluded, reported with dashes — here for the two base connection
arguments, in the order the source lists them. -/
def baseMissing (k : KwArgs) : List String :=
  (if addrMissing k.vault_addr then ["vault-addr"] else []) ++
  (if tokenMissing k.vault_token then ["vault-token"] else [])

/-- The missing-argument list for the two copy operations, which also
require the target connection arguments. -/
def copyMissing (k : KwArgs) : List String :=
  baseMissing k ++
  (if addrMissing k.vault_target_addr then ["vault-target-addr"] else []) ++
  (if tokenMissing k.vault_target_token then ["vault-target-token"] else [])

/-- Embedding of `VaultManagerKV.read_from_vault`: lists the tree under the
path (no exclusion) and reads every listed leaf; the resulting snapshot is a
path-keyed mapping, so repeated listings collapse to their first
occurrence. -/
def read_from_vault (st : Store) (path : String) (a t : String) :
    List Event × List (String × Doc) :=
  let kv_list := secrets_tree_list st path []
  (Event.listEv a t path :: kv_list.map (fun p => Event.readEv a t p),
   (dedupFirst kv_list).map (fun p => (p, read_secret st p)))

/-- Embedding of `VaultManagerKV.push_to_vault`: writes each exported
secret to the target path followed by the source path segments past the
exported root. -/
def push_to_vault (a t : String) (exported_path : String)
    (exported_kv : List (String × Doc)) (target_path : String) (st : Store) :
    List Event × Store :=
  exported_kv.foldl
    (fun acc e =>
      let secret_target_path :=
        list_to_string
          (splitSeg target_path ++ (splitSeg e.1).drop (splitSeg exported_path).length)
      (acc.1 ++ [Event.writeEv a t secret_target_path e.2],
       writeStore acc.2 secret_target_path e.2))
    ([], st)

/-- Embedding of `VaultManagerKV.delete_from_vault`: deletes every listed
path through the given client. -/
def delete_from_vault (a t : String) (kv_to_delete : List String) (st : Store) :
    List Event × Store :=
  kv_to_delete.foldl
    (fun acc p => (acc.1 ++ [Event.deleteEv a t p], deleteStore acc.2 p))
    ([], st)

/-- Embedding of `VaultManagerKV.kv_copy_secret`.  Note that the source
connects the target client with `vault_addr`/`vault_token` (the source
credentials), which the trace records faithfully. -/
def kv_copy_secret (k : KwArgs) (st : Store) : Outcome :=
  if (copyMissing k).length ≠ 0 then
    ⟨[], .error (.valueError (copyMissing k))⟩
  else
    let sp := (k.copy_secret.getD ("", "")).1
    let dp := (k.copy_secret.getD ("", "")).2
    let a := k.vault_addr.getD ""
    let t := k.vault_token.getD ""
    let secret_to_copy := read_secret st sp
    if secret_to_copy.length = 0 then
      ⟨[Event.connect a t, Event.readEv a t sp],
       .error (.attributeError
         (sp ++ " is not a valid secret. If you are trying to copy a path, use --copy-path instead"))⟩
    else
      ⟨[Event.connect a t, Event.readEv a t sp, Event.connect a t,
        Event.writeEv a t dp secret_to_copy],
       .ok (writeStore st dp secret_to_copy)⟩

/-- Embedding of `VaultManagerKV.kv_copy_path`.  As in the source, the
target client is connected with `vault_addr`/`vault_token`. -/
def kv_copy_path (k : KwArgs) (st : Store) : Outcome :=
  if (copyMissing k).length ≠ 0 then
    ⟨[], .error (.valueError (copyMissing k))⟩
  else
    let sp := (k.copy_path.getD ("", "")).1
    let dp := (k.copy_path.getD ("", "")).2
    let a := k.vault_addr.getD ""
    let t := k.vault_token.getD ""
    let rfv := read_from_vault st sp a t
    if rfv.2.length = 0 then
      ⟨Event.connect a t :: rfv.1, .error (.attributeError "No path to copy")⟩
    else if rfv.2.length = 1 ∧ (rfv.2.map Prod.fst).head? = some sp then
      ⟨Event.connect a t :: rfv.1,
       .error (.attributeError
         "--copy-path should not be used to copy individual secrets. Use --copy-secret instead")⟩
    else
      let pushed := push_to_vault a t sp rfv.2 dp st
      ⟨Event.connect a t :: (rfv.1 ++ [Event.connect a t] ++ pushed.1),
       .ok pushed.2⟩

/-- The per-root loop of `kv_delete`: snapshot each root against the current
store, delete every found leaf, or log that there is nothing to delete. -/
def deleteRoots (a t : String) : List String → List Event × Store → List Event × Store
  | [], acc => acc
  | r :: rest, acc =>
      let rfv := read_from_vault acc.2 r a t
      if rfv.2.length ≠ 0 then
        let dl := delete_from_vault a t (rfv.2.map Prod.fst) acc.2
        deleteRoots a t rest (acc.1 ++ rfv.1 ++ dl.1, dl.2)
      else
        deleteRoots a t rest
          (acc.1 ++ rfv.1 ++ [Event.logErr ("No secrets to delete at " ++ r)], acc.2)

/-- Embedding of `VaultManagerKV.kv_delete`. -/
def kv_delete (k : KwArgs) (st : Store) : Outcome :=
  if (baseMissing k).length ≠ 0 then
    ⟨[], .error (.valueError (baseMissing k))⟩
  else
    let a := k.vault_addr.getD ""
    let t := k.vault_token.getD ""
    let fin := deleteRoots a t (k.delete.getD []) ([Event.connect a t], st)
    ⟨fin.1, .ok fin.2⟩

/-- The report produced by `kv_count`: the per-root breakdown
`(root, secrets_count, values_count)` and the grand totals. -/
structure CountResult where
  perRoot : List (String × Nat × Nat)
  total_secrets : Nat
  total_kv : Nat
deriving DecidableEq

/-- The per-root loop of `kv_count`, accumulating events, the per-root
breakdown and the running totals exactly as the source loop does. -/
def countRoots (st : Store) (a t : String) (ex : List String) :
    List String → List Event × List (String × Nat × Nat) × Nat × Nat →
    List Event × List (String × Nat × Nat) × Nat × Nat
  | [], acc => acc
  | r :: rest, acc =>
      let all_secrets := secrets_tree_list st r ex
      let kvc := all_secrets.foldl (fun n p => n + (read_secret st p).length) 0
      countRoots st a t ex rest
        (acc.1 ++ (Event.listEv a t r :: all_secrets.map (fun p => Event.readEv a t p)),
         acc.2.1 ++ [(r, all_secrets.length, kvc)],
         acc.2.2.1 + all_secrets.length,
         acc.2.2.2 + kvc)

/-- Embedding of `VaultManagerKV.kv_count`. -/
def kv_count (k : KwArgs) (st : Store) : List Event × Except VMError CountResult :=
  if (baseMissing k).length ≠ 0 then
    ([], .error (.valueError (baseMissing k)))
  else
    let a := k.vault_addr.getD ""
    let t := k.vault_token.getD ""
    let fin := countRoots st a t (k.exclude.getD []) (k.count.getD [])
      ([Event.connect a t], [], 0, 0)
    (fin.1, .ok ⟨fin.2.1, fin.2.2.1, fin.2.2.2⟩)

/-- The locator string `path:key` of a `(path, key, value)` triple. -/
def locator (t : String × String × String) : String :=
  t.1 ++ ":" ++ t.2.1

/-- One step of the duplicate grouping: append the locator to the group of
its value, or open a new group for a first-seen value. -/
def addLocator (acc : List (String × List String)) (value loc : String) :
    List (String × List String) :=
  if acc.any (fun e => e.1 == value) then
    acc.map (fun e => if e.1 == value then (e.1, e.2 ++ [loc]) else e)
  else
    acc ++ [(value, [loc])]

/-- The `values_count` mapping of `kv_find_duplicates`: every value seen,
in first-occurrence order, with the locators of its occurrences. -/
def values_count (ts : List (String × String × String)) : List (String × List String) :=
  ts.foldl (fun acc t => addLocator acc t.2.2 (locator t)) []

/-- Flatten a snapshot into its `(path, key, value)` triples in document
order, as the nested loops of `kv_find_duplicates` visit them. -/
def gatherTriples (kv_full : List (String × Doc)) : List (String × String × String) :=
  kv_full.flatMap (fun pd => pd.2.map (fun kv => (pd.1, kv.1, kv.2)))

/-- The concatenated listing of `kv_find_duplicates` across all requested
roots. -/
def dupKvList (st : Store) (ex roots : List String) : List String :=
  roots.foldl (fun acc r => acc ++ secrets_tree_list st r ex) []

/-- The combined, path-keyed snapshot `kv_full` of `kv_find_duplicates`. -/
def dupKvFull (st : Store) (ex roots : List String) : List (String × Doc) :=
  (dedupFirst (dupKvList st ex roots)).map (fun p => (p, read_secret st p))

/-- All `(path, key, value)` triples gathered by `kv_find_duplicates`. -/
def dupTriples (st : Store) (ex roots : List String) : List (String × String × String) :=
  gatherTriples (dupKvFull st ex roots)

/-- The locators of all triples carrying a given value, in gathering
order. -/
def valueGroup (ts : List (String × String × String)) (v : String) : List String :=
  (ts.filter (fun t2 => t2.2.2 == v)).map locator

/-- Embedding of `VaultManagerKV.kv_find_duplicates`. -/
def kv_find_duplicates (k : KwArgs) (st : Store) :
    List Event × Except VMError (List (List String)) :=
  if (baseMissing k).length ≠ 0 then
    ([], .error (.valueError (baseMissing k)))
  else
    let a := k.vault_addr.getD ""
    let t := k.vault_token.getD ""
    let ex := k.exclude.getD []
    let roots := k.find_duplicates.getD []
    let kv_list := dupKvList st ex roots
    let vc := values_count (dupTriples st ex roots)
    (Event.connect a t ::
       (roots.map (fun r => Event.listEv a t r) ++
        kv_list.map (fun p => Event.readEv a t p)),
     .ok ((vc.filter (fun e => 1 < e.2.length)).map Prod.snd))

/-- Embedding of `VaultManagerKV.kv_secrets_tree`. -/
def kv_secrets_tree (k : KwArgs) (st : Store) :
    List Event × Except VMError (List (String × List String)) :=
  if (baseMissing k).length ≠ 0 then
    ([], .error (.valueError (baseMissing k)))
  else
    let a := k.vault_addr.getD ""
    let t := k.vault_token.getD ""
    let ex := k.exclude.getD []
    let roots := k.secrets_tree.getD []
    (Event.connect a t :: roots.map (fun r => Event.listEv a t r),
     .ok (roots.map (fun r => (r, secrets_tree_list st r ex))))

/-- Python truthiness of a two-argument option value. -/
def truthyPair : Option (String × String) → Bool
  | none => false
  | some _ => true

/-- Python truthiness of a multi-argument option value (an empty list is
falsy). -/
def truthyList : Option (List String) → Bool
  | none => false
  | some l => !l.isEmpty

/-- The `any([...])` guard of `run`, over the six operation options in the
order the source lists them. -/
def opAny (k : KwArgs) : Bool :=
  truthyPair k.copy_path || truthyList k.count || truthyPair k.copy_secret ||
  truthyList k.delete || truthyList k.find_duplicates || truthyList k.secrets_tree

/-- What `run` amounts to for the process: help printed (returned `False`),
an operation completed, an `AttributeError` caught and only logged, or a
`ValueError` propagating out of `run`. -/
inductive RunOutcome where
  | helpShown
  | completed (st : Store)
  | loggedError (msg : String)
  | raised (missing : List String)
deriving DecidableEq

/-- How `run` disposes of a mutating operation's outcome: `AttributeError`
is caught and logged, `ValueError` propagates. -/
def toRun (o : Outcome) : List Event × RunOutcome :=
  (o.events,
   match o.result with
   | .ok st => .completed st
   | .error (.valueError l) => .raised l
   | .error (.attributeError m) => .loggedError m)

/-- How `run` disposes of a read-only operation's result (the store is
unchanged). -/
def toRunPure {α : Type} (st : Store) (p : List Event × Except VMError α) :
    List Event × RunOutcome :=
  (p.1,
   match p.2 with
   | .ok _ => .completed st
   | .error (.valueError l) => .raised l
   | .error (.attributeError m) => .loggedError m)

/-- Embedding of `VaultManagerKV.run`: print help when no operation option
is supplied, otherwise dispatch to the first truthy operation in source
order, catching `AttributeError` only. -/
def run (k : KwArgs) (st : Store) : List Event × RunOutcome :=
  if !opAny k then
    ([], .helpShown)
  else if truthyPair k.copy_path then toRun (kv_copy_path k st)
  else if truthyPair k.copy_secret then toRun (kv_copy_secret k st)
  else if truthyList k.delete then toRun (kv_delete k st)
  else if truthyList k.count then toRunPure st (kv_count k st)
  else if truthyList k.find_duplicates then toRunPure st (kv_find_duplicates k st)
  else if truthyList k.secrets_tree then toRunPure st (kv_secrets_tree k st)
  else ([], .completed st)

/-- The write events of a trace. -/
def writesOf (evs : List Event) : List Event :=
  evs.filter (fun e =>
    match e with
    | .writeEv _ _ _ _ => true
    | _ => false)

/-- The per-secret destination path computed by `push_to_vault`: the target
path segments followed by the source path segments past the exported
root. -/
def remapPath (exported_path target_path secret : String) : String :=
  list_to_string
    (splitSeg target_path ++ (splitSeg secret).drop (splitSeg exported_path).length)

/-- Lookup of a value's group in the `values_count` mapping (the group is
empty when the value has not been seen). -/
def lookupVC (vc : List (String × List String)) (v : String) : List String :=
  ((vc.find? (fun e => e.1 == v)).map Prod.snd).getD []

instance instDecEqExcept {e a : Type} [DecidableEq e] [DecidableEq a] :
    DecidableEq (Except e a) := fun x y =>
  match x, y with
  | .ok u, .ok v =>
      match decEq u v with
      | isTrue h => isTrue (by rw [h])
      | isFalse h => isFalse (fun c => h (Except.ok.inj c))
  | .ok _, .error _ => isFalse (fun c => Except.noConfusion c)
  | .error _, .ok _ => isFalse (fun c => Except.noConfusion c)
  | .error u, .error v =>
      match decEq u v with
      | isTrue h => isTrue (by rw [h])
      | isFalse h => isFalse (fun c => h (Except.error.inj c))

/-- A fully populated invocation of Copy Secret: distinct source and target
connections, copying `app/a` to `app/b`. -/
def cSecretArgs : KwArgs :=
  ⟨some "http://source:8200", some "stoken", some "http://target:8200", some "ttoken",
   none, some ("app/a", "app/b"), none, none, none, none, none⟩

/-- A fully populated invocation of Copy Path: distinct source and target
connections, copying the subtree at `app` to `dst/root`. -/
def cPathArgs : KwArgs :=
  ⟨some "http://source:8200", some "stoken", some "http://target:8200", some "ttoken",
   some ("app", "dst/root"), none, none, none, none, none, none⟩

/-- A store holding one secret at `app/a`. -/
def cStore1 : Store := [("app/a", [("k", "v")])]

/-- A store holding two secrets under `app`. -/
def cStore2 : Store := [("app/a", [("k", "v")]), ("app/b", [("k2", "v2")])]

/-- A concrete Delete Subtree invocation over the root `app`. -/
def cDelArgs : KwArgs :=
  ⟨some "http://source:8200", some "stoken", none, none,
   none, none, some ["app"], none, none, none, none⟩

/-- A concrete Find Duplicates invocation over the root `x`. -/
def cDupArgs : KwArgs :=
  ⟨some "http://source:8200", some "stoken", none, none,
   none, none, none, none, some ["x"], none, none⟩

/-- The spec's duplicate-detector example store: two leaves share the value
`v`, one leaf holds the value `w`. -/
def cDupStore : Store :=
  [("x/a", [("k1", "v")]), ("x/b", [("k2", "v")]), ("x/c", [("k3", "w")])]

/-- A Copy Secret invocation whose target connection arguments are absent. -/
def cNoTargetArgs : KwArgs :=
  ⟨some "http://source:8200", some "stoken", none, none,
   none, some ("app/a", "app/b"), none, none, none, none, none⟩

/-- A store in which the secret `app/a` exists but holds the empty
document. -/
def cEmptyDocStore : Store := [("app/a", [])]

lemma writesOf_append (l1 l2 : List Event) :
    writesOf (l1 ++ l2) = writesOf l1 ++ writesOf l2 := by
  simp [writesOf, List.filter_append]

lemma writesOf_connect (a t : String) (l : List Event) :
    writesOf (Event.connect a t :: l) = writesOf l := by
  simp [writesOf]

lemma writesOf_listEv (a t p : String) (l : List Event) :
    writesOf (Event.listEv a t p :: l) = writesOf l := by
  simp [writesOf]

lemma writesOf_readEvs (a t : String) (ps : List String) :
    writesOf (ps.map (fun p => Event.readEv a t p)) = [] := by
  induction ps with
  | nil => rfl
  | cons p rest ih => simp [writesOf] at ih ⊢

lemma writesOf_writeEvs (a t : String) (l : List (String × Doc)) (f : String × Doc → String) :
    writesOf (l.map (fun e => Event.writeEv a t (f e) e.2)) =
      l.map (fun e => Event.writeEv a t (f e) e.2) := by
  induction l with
  | nil => rfl
  | cons e rest ih => simpa [writesOf] using ih

lemma writesOf_rfv (st : Store) (p a t : String) :
    writesOf (read_from_vault st p a t).1 = [] := by
  simp [read_from_vault, writesOf_listEv, writesOf_readEvs]

lemma push_to_vault_spec (a t ep tp : String) :
    ∀ (kv : List (String × Doc)) (evs : List Event) (st : Store),
      kv.foldl
        (fun acc e =>
          (acc.1 ++ [Event.writeEv a t (remapPath ep tp e.1) e.2],
           writeStore acc.2 (remapPath ep tp e.1) e.2))
        (evs, st) =
      (evs ++ kv.map (fun e => Event.writeEv a t (remapPath ep tp e.1) e.2),
       kv.foldl (fun s e => writeStore s (remapPath ep tp e.1) e.2) st) := by
  intro kv
  induction kv with
  | nil => intro evs st; simp
  | cons e rest ih => intro evs st; simp [ih]

lemma push_to_vault_eq (a t ep : String) (kv : List (String × Doc)) (tp : String) (st : Store) :
    push_to_vault a t ep kv tp st =
      (kv.map (fun e => Event.writeEv a t (remapPath ep tp e.1) e.2),
       kv.foldl (fun s e => writeStore s (remapPath ep tp e.1) e.2) st) := by
  have h := push_to_vault_spec a t ep tp kv [] st
  simpa [push_to_vault, remapPath, list_to_string] using h

lemma mem_foldl_dedup (l : List String) :
    ∀ (acc : List String) (x : String),
      x ∈ l.foldl (fun acc y => if acc.contains y then acc else acc ++ [y]) acc ↔
        x ∈ acc ∨ x ∈ l := by
  induction l with
  | nil => intro acc x; simp
  | cons y rest ih =>
      intro acc x
      by_cases hc : acc.contains y
      · have hy : y ∈ acc := by
          simpa [List.elem_iff] using hc
        simp only [List.foldl_cons, hc, if_true, ih]
        constructor
        · rintro (h | h)
          · exact Or.inl h
          · exact Or.inr (List.mem_cons_of_mem _ h)
        · rintro (h | h)
          · exact Or.inl h
          · rcases List.mem_cons.mp h with rfl | h
            · exact Or.inl hy
            · exact Or.inr h
      · simp only [List.foldl_cons, hc, if_false, ih]
        constructor
        · rintro (h | h)
          · rcases List.mem_append.mp h with h | h
            · exact Or.inl h
            · rcases List.mem_singleton.mp h with rfl
              exact Or.inr (List.mem_cons_self _ _)
          · exact Or.inr (List.mem_cons_of_mem _ h)
        · rintro (h | h)
          · exact Or.inl (List.mem_append.mpr (Or.inl h))
          · rcases List.mem_cons.mp h with rfl | h
            · exact Or.inl (List.mem_append.mpr (Or.inr (List.mem_singleton.mpr rfl)))
            · exact Or.inr h

lemma mem_dedupFirst (l : List String) (x : String) :
    x ∈ dedupFirst l ↔ x ∈ l := by
  simpa [dedupFirst] using mem_foldl_dedup l [] x

lemma dedupFirst_eq_nil (l : List String) :
    dedupFirst l = [] ↔ l = [] := by
  constructor
  · intro h
    cases l with
    | nil => rfl
    | cons x rest =>
        exfalso
        have hx : x ∈ dedupFirst (x :: rest) :=
          (mem_dedupFirst _ _).mpr (List.mem_cons_self _ _)
        rw [h] at hx
        exact List.not_mem_nil _ hx
  · rintro rfl; rfl

lemma delete_from_vault_spec (a t : String) :
    ∀ (l : List String) (evs : List Event) (st : Store),
      l.foldl (fun acc p => (acc.1 ++ [Event.deleteEv a t p], deleteStore acc.2 p)) (evs, st) =
        (evs ++ l.map (fun p => Event.deleteEv a t p),
         l.foldl (fun s p => deleteStore s p) st) := by
  intro l
  induction l with
  | nil => intro evs st; simp
  | cons p rest ih => intro evs st; simp [ih]

lemma delete_from_vault_eq (a t : String) (l : List String) (st : Store) :
    delete_from_vault a t l st =
      (l.map (fun p => Event.deleteEv a t p), l.foldl (fun s p => deleteStore s p) st) := by
  have h := delete_from_vault_spec a t l [] st
  simpa [delete_from_vault] using h

lemma mem_foldl_deleteStore (p : String) (d : Doc) :
    ∀ (l : List String) (st : Store),
      (p, d) ∈ l.foldl (fun s q => deleteStore s q) st → (p, d) ∈ st ∧ p ∉ l := by
  intro l
  induction l with
  | nil => intro st h; simpa using h
  | cons q rest ih =>
      intro st h
      have h2 := ih (deleteStore st q) h
      rcases h2 with ⟨hmem, hrest⟩
      have hmem2 : (p, d) ∈ st ∧ ¬(p == q) := by
        have := List.mem_filter.mp hmem
        simpa using this
      refine ⟨hmem2.1, ?_⟩
      intro hc
      rcases List.mem_cons.mp hc with rfl | hc
      · exact hmem2.2 (by simp)
      · exact hrest hc

lemma deleteRoots_store_indep (a t : String) :
    ∀ (roots : List String) (evs evs2 : List Event) (st : Store),
      (deleteRoots a t roots (evs, st)).2 = (deleteRoots a t roots (evs2, st)).2 := by
  intro roots
  induction roots with
  | nil => intro evs evs2 st; rfl
  | cons r rest ih =>
      intro evs evs2 st
      simp only [deleteRoots]
      by_cases h : (read_from_vault st r a t).2.length ≠ 0
      · rw [if_pos h, if_pos h]; exact ih _ _ _
      · rw [if_neg h, if_neg h]; exact ih _ _ _

lemma deleteRoots_events_mono (a t : String) :
    ∀ (roots : List String) (evs : List Event) (st : Store) (e : Event),
      e ∈ evs → e ∈ (deleteRoots a t roots (evs, st)).1 := by
  intro roots
  induction roots with
  | nil => intro evs st e h; exact h
  | cons r rest ih =>
      intro evs st e h
      simp only [deleteRoots]
      by_cases hc : (read_from_vault st r a t).2.length ≠ 0
      · rw [if_pos hc]
        exact ih _ _ _ (by simp [h])
      · rw [if_neg hc]
        exact ih _ _ _ (by simp [h])

lemma stl_foldl_delete_self (st : Store) (r : String) :
    secrets_tree_list
      ((dedupFirst (secrets_tree_list st r [])).foldl (fun s q => deleteStore s q) st) r [] = [] := by
  rw [secrets_tree_list]
  apply List.filter_eq_nil_iff.mpr
  intro p hp
  rcases List.mem_map.mp hp with ⟨pd, hpd, rfl⟩
  rcases mem_foldl_deleteStore pd.1 pd.2 _ st (by simpa using hpd) with ⟨hmem, hnot⟩
  intro hpred
  apply hnot
  apply (mem_dedupFirst _ _).mpr
  rw [secrets_tree_list]
  apply List.mem_filter.mpr
  exact ⟨List.mem_map.mpr ⟨pd, hmem, rfl⟩, hpred⟩

lemma foldl_add_map (f : String → Nat) :
    ∀ (l : List String) (n : Nat), l.foldl (fun m p => m + f p) n = n + (l.map f).sum := by
  intro l
  induction l with
  | nil => intro n; simp
  | cons p rest ih => intro n; simp [ih, Nat.add_assoc]

lemma countRoots_spec (st : Store) (a t : String) (ex : List String) :
    ∀ (roots : List String) (acc : List Event × List (String × Nat × Nat) × Nat × Nat),
      countRoots st a t ex roots acc =
        (acc.1 ++ roots.flatMap (fun r =>
           Event.listEv a t r ::
             (secrets_tree_list st r ex).map (fun p => Event.readEv a t p)),
         acc.2.1 ++ roots.map (fun r =>
           (r, (secrets_tree_list st r ex).length,
            ((secrets_tree_list st r ex).map (fun p => (read_secret st p).length)).sum)),
         acc.2.2.1 + (roots.map (fun r => (secrets_tree_list st r ex).length)).sum,
         acc.2.2.2 + (roots.map (fun r =>
           ((secrets_tree_list st r ex).map (fun p => (read_secret st p).length)).sum)).sum) := by
  intro roots
  induction roots with
  | nil => intro acc; simp [countRoots]
  | cons r rest ih =>
      intro acc
      rw [countRoots, ih]
      simp [foldl_add_map, Nat.add_assoc]

lemma lookupVC_cons (e : String × List String) (rest : List (String × List String)) (v : String) :
    lookupVC (e :: rest) v = if e.1 == v then e.2 else lookupVC rest v := by
  by_cases h : (e.1 == v) = true
  · rw [if_pos h]
    have hf : List.find? (fun x => x.1 == v) (e :: rest) = some e :=
      List.find?_cons_of_pos _ h
    unfold lookupVC
    rw [hf]
    rfl
  · rw [if_neg h]
    have hf : List.find? (fun x => x.1 == v) (e :: rest) = List.find? (fun x => x.1 == v) rest :=
      List.find?_cons_of_neg _ h
    unfold lookupVC
    rw [hf]

lemma addLocator_cons_ne (e : String × List String) (rest : List (String × List String))
    (val loc : String) (h : (e.1 == val) = false) :
    addLocator (e :: rest) val loc = e :: addLocator rest val loc := by
  simp only [addLocator, List.any_cons, h, Bool.false_or, List.map_cons, List.cons_append]
  by_cases hr : rest.any (fun x => x.1 == val)
  · rw [if_pos hr, if_pos hr]
    simp [h]
  · rw [if_neg hr, if_neg hr]

lemma lookupVC_map_update_ne (val loc v : String) (h : v ≠ val) :
    ∀ (l : List (String × List String)),
      lookupVC (l.map (fun e => if e.1 == val then (e.1, e.2 ++ [loc]) else e)) v =
        lookupVC l v := by
  intro l
  induction l with
  | nil => rfl
  | cons e rest ih =>
      simp only [List.map_cons]
      by_cases hval : (e.1 == val) = true
      · have hnv : ¬((e.1 == v) = true) := by
          intro hc
          exact h (by rw [← eq_of_beq hc]; exact eq_of_beq hval)
        have hnv2 : ¬(((e.1, e.2 ++ [loc]).1 == v) = true) := hnv
        rw [if_pos hval, lookupVC_cons, lookupVC_cons, if_neg hnv2, if_neg hnv]
        exact ih
      · rw [if_neg hval, lookupVC_cons, lookupVC_cons]
        by_cases hv : (e.1 == v) = true
        · rw [if_pos hv, if_pos hv]
        · rw [if_neg hv, if_neg hv]
          exact ih

lemma lookupVC_addLocator (val loc v : String) :
    ∀ (acc : List (String × List String)),
      lookupVC (addLocator acc val loc) v =
        lookupVC acc v ++ (if v = val then [loc] else []) := by
  intro acc
  induction acc with
  | nil =>
      by_cases h : v = val
      · subst h; simp [addLocator, lookupVC_cons, lookupVC]
      · have hb : (val == v) = false := beq_eq_false_iff_ne.mpr (Ne.symm h)
        simp [addLocator, lookupVC_cons, hb, h, lookupVC]
  | cons e rest ih =>
      by_cases he : (e.1 == val) = true
      · have heval : e.1 = val := eq_of_beq he
        have hany : ((e :: rest).any (fun x => x.1 == val)) = true := by
          simp [List.any_cons, he]
        simp only [addLocator, hany, if_true, List.map_cons, he, if_pos]
        by_cases hv : v = val
        · subst hv
          rw [lookupVC_cons, lookupVC_cons]
          have hb : (e.1 == v) = true := by rw [heval]; simp
          rw [if_pos (by simpa using hb), if_pos hb]
          simp
        · have hnv : (e.1 == v) = false := by
            rw [heval]; exact beq_eq_false_iff_ne.mpr (Ne.symm hv)
          rw [lookupVC_cons, lookupVC_cons]
          rw [if_neg (by simp [hnv]), if_neg (by simp [hnv])]
          rw [lookupVC_map_update_ne val loc v hv rest]
          simp [hv]
      · have he2 : (e.1 == val) = false := by simpa using he
        rw [addLocator_cons_ne e rest val loc he2]
        rw [lookupVC_cons, lookupVC_cons]
        by_cases hv : (e.1 == v) = true
        · have hvval : v ≠ val := by
            intro hc
            subst hc
            rw [hv] at he2
            exact Bool.noConfusion he2
          rw [if_pos hv, if_pos hv]
          simp [hvval]
        · rw [if_neg hv, if_neg hv]
          exact ih

lemma keys_addLocator (acc : List (String × List String)) (val loc : String) :
    (addLocator acc val loc).map Prod.fst =
      if acc.any (fun e => e.1 == val) then acc.map Prod.fst
      else acc.map Prod.fst ++ [val] := by
  by_cases hc : acc.any (fun e => e.1 == val)
  · rw [if_pos hc]
    simp only [addLocator, hc, if_true, List.map_map]
    apply List.map_congr_left
    intro e _
    show (if e.1 == val then (e.1, e.2 ++ [loc]) else e).1 = e.1
    by_cases he : (e.1 == val) = true
    · rw [if_pos he]
    · rw [if_neg he]
  · rw [if_neg hc]
    simp [addLocator, hc]

lemma nodup_keys_addLocator (acc : List (String × List String)) (val loc : String)
    (h : (acc.map Prod.fst).Nodup) : ((addLocator acc val loc).map Prod.fst).Nodup := by
  rw [keys_addLocator]
  by_cases hc : acc.any (fun e => e.1 == val)
  · rw [if_pos hc]; exact h
  · rw [if_neg hc]
    have hnot : val ∉ acc.map Prod.fst := by
      intro hmem
      rcases List.mem_map.mp hmem with ⟨e, he, rfl⟩
      exact hc (List.any_eq_true.mpr ⟨e, he, by simp⟩)
    rw [List.nodup_append]
    exact ⟨h, List.nodup_singleton _, by
      intro x hx hx2
      rcases List.mem_singleton.mp hx2 with rfl
      exact hnot hx⟩

lemma nodup_keys_foldl_addLocator :
    ∀ (ts : List (String × String × String)) (acc : List (String × List String)),
      (acc.map Prod.fst).Nodup →
      ((ts.foldl (fun acc t => addLocator acc t.2.2 (locator t)) acc).map Prod.fst).Nodup := by
  intro ts
  induction ts with
  | nil => intro acc h; exact h
  | cons t rest ih =>
      intro acc h
      exact ih _ (nodup_keys_addLocator acc t.2.2 (locator t) h)

lemma nodup_keys_values_count (ts : List (String × String × String)) :
    ((values_count ts).map Prod.fst).Nodup := by
  exact nodup_keys_foldl_addLocator ts [] (by simp)

lemma lookupVC_foldl_addLocator (v : String) :
    ∀ (ts : List (String × String × String)) (acc : List (String × List String)),
      lookupVC (ts.foldl (fun acc t => addLocator acc t.2.2 (locator t)) acc) v =
        lookupVC acc v ++ (ts.filter (fun t => t.2.2 == v)).map locator := by
  intro ts
  induction ts with
  | nil => intro acc; simp
  | cons t rest ih =>
      intro acc
      simp only [List.foldl_cons]
      rw [ih]
      rw [lookupVC_addLocator]
      by_cases hv : v = t.2.2
      · have hb : (t.2.2 == v) = true := by rw [hv]; simp
        simp [List.filter_cons, hb, hv, List.append_assoc]
      · have hb : (t.2.2 == v) = false := beq_eq_false_iff_ne.mpr (fun hc => hv hc.symm)
        simp [List.filter_cons, hb, hv]

lemma lookupVC_values_count (ts : List (String × String × String)) (v : String) :
    lookupVC (values_count ts) v = valueGroup ts v := by
  have h := lookupVC_foldl_addLocator v ts []
  simpa [values_count, valueGroup, lookupVC] using h

lemma mem_vc_lookup :
    ∀ (vc : List (String × List String)), (vc.map Prod.fst).Nodup →
      ∀ e ∈ vc, lookupVC vc e.1 = e.2 := by
  intro vc
  induction vc with
  | nil => intro _ e he; exact absurd he (List.not_mem_nil _)
  | cons f rest ih =>
      intro h e he
      rw [List.map_cons, List.nodup_cons] at h
      rcases List.mem_cons.mp he with rfl | he2
      · rw [lookupVC_cons, if_pos (by simp)]
      · have hne : (f.1 == e.1) = false := by
          apply beq_eq_false_iff_ne.mpr
          intro hc
          exact h.1 (hc ▸ List.mem_map.mpr ⟨e, he2, rfl⟩)
        rw [lookupVC_cons, if_neg (by simp [hne])]
        exact ih h.2 e he2

lemma lookupVC_ne_nil (vc : List (String × List String)) (v : String)
    (h : lookupVC vc v ≠ []) :
    ∃ e, e ∈ vc ∧ e.1 = v ∧ e.2 = lookupVC vc v := by
  cases hf : vc.find? (fun e => e.1 == v) with
  | none => exact absurd (by simp [lookupVC, hf]) h
  | some e =>
      have hp := List.find?_some hf
      refine ⟨e, List.mem_of_find?_eq_some hf, eq_of_beq hp, ?_⟩
      simp [lookupVC, hf]

/-- C9: Copy Secret reads the document at the source path, raises an error
with guidance toward Copy Path when that document is empty and performs no
write in that case, and otherwise writes the document unchanged to the
destination path with exactly one write call. -/
theorem kv_copy_secret_read_validate_write (k : KwArgs) (st : Store) (sp dp a t : String)
    (hm : copyMissing k = []) (hcs : k.copy_secret = some (sp, dp))
    (ha : a = k.vault_addr.getD "") (ht : t = k.vault_token.getD "") :
    Event.readEv a t sp ∈ (kv_copy_secret k st).events ∧
    (read_secret st sp = [] →
      (kv_copy_secret k st).result = .error (.attributeError
        (sp ++ " is not a valid secret. If you are trying to copy a path, use --copy-path instead")) ∧
      writesOf (kv_copy_secret k st).events = []) ∧
    (read_secret st sp ≠ [] →
      writesOf (kv_copy_secret k st).events = [Event.writeEv a t dp (read_secret st sp)] ∧
      (kv_copy_secret k st).result = .ok (writeStore st dp (read_secret st sp))) := by
  subst ha ht
  by_cases hr : read_secret st sp = []
  · refine ⟨?_, fun _ => ⟨?_, ?_⟩, fun hcon => absurd hr hcon⟩
    · simp [kv_copy_secret, hm, hcs, hr]
    · simp [kv_copy_secret, hm, hcs, hr]
    · simp [kv_copy_secret, hm, hcs, hr, writesOf]
  · have hl : (read_secret st sp).length ≠ 0 := by
      intro hc
      exact hr (List.length_eq_zero.mp hc)
    refine ⟨?_, fun hc => absurd hc hr, fun _ => ⟨?_, ?_⟩⟩
    · simp [kv_copy_secret, hm, hcs, hl]
    · simp [kv_copy_secret, hm, hcs, hl, writesOf]
    · simp [kv_copy_secret, hm, hcs, hl]

/-- C9 witness: a concrete Copy Secret invocation with all four connection
arguments and a non-empty source secret. -/
theorem kv_copy_secret_read_validate_write_witness :
    copyMissing cSecretArgs = [] ∧ cSecretArgs.copy_secret = some ("app/a", "app/b") ∧
    (Event.readEv "http://source:8200" "stoken" "app/a" ∈
       (kv_copy_secret cSecretArgs cStore1).events ∧
     (read_secret cStore1 "app/a" = [] →
       (kv_copy_secret cSecretArgs cStore1).result = .error (.attributeError
         ("app/a" ++ " is not a valid secret. If you are trying to copy a path, use --copy-path instead")) ∧
       writesOf (kv_copy_secret cSecretArgs cStore1).events = []) ∧
     (read_secret cStore1 "app/a" ≠ [] →
       writesOf (kv_copy_secret cSecretArgs cStore1).events =
         [Event.writeEv "http://source:8200" "stoken" "app/b" (read_secret cStore1 "app/a")] ∧
       (kv_copy_secret cSecretArgs cStore1).result =
         .ok (writeStore cStore1 "app/b" (read_secret cStore1 "app/a")))) :=
  ⟨by decide, by decide,
   kv_copy_secret_read_validate_write cSecretArgs cStore1 "app/a" "app/b"
     "http://source:8200" "stoken" (by decide) (by decide) (by decide) (by decide)⟩

/-- C3: Copy Path performs no write when its precondition fails: an empty
snapshot at the source root raises the nothing-to-copy error, and a
singleton snapshot whose only path equals the source root raises the
ambiguous-target error directing the caller to Copy Secret; in both cases
no write call appears in the trace. -/
theorem kv_copy_path_rejects_empty_and_singleton (k : KwArgs) (st : Store) (sp dp : String)
    (hm : copyMissing k = []) (hcp : k.copy_path = some (sp, dp)) :
    (secrets_tree_list st sp [] = [] →
      (kv_copy_path k st).result = .error (.attributeError "No path to copy") ∧
      writesOf (kv_copy_path k st).events = []) ∧
    (dedupFirst (secrets_tree_list st sp []) = [sp] →
      (kv_copy_path k st).result = .error (.attributeError
        "--copy-path should not be used to copy individual secrets. Use --copy-secret instead") ∧
      writesOf (kv_copy_path k st).events = []) := by
  constructor
  · intro hempty
    have hrfv : (read_from_vault st sp (k.vault_addr.getD "") (k.vault_token.getD "")).2 = [] := by
      simp [read_from_vault, hempty, dedupFirst]
    have hev : (kv_copy_path k st).events =
        Event.connect (k.vault_addr.getD "") (k.vault_token.getD "") ::
          (read_from_vault st sp (k.vault_addr.getD "") (k.vault_token.getD "")).1 := by
      simp [kv_copy_path, hm, hcp, hrfv]
    constructor
    · simp [kv_copy_path, hm, hcp, hrfv]
    · rw [hev, writesOf_connect, writesOf_rfv]
  · intro hsingle
    have hrfv : (read_from_vault st sp (k.vault_addr.getD "") (k.vault_token.getD "")).2 =
        [(sp, read_secret st sp)] := by
      simp [read_from_vault, hsingle]
    have hev : (kv_copy_path k st).events =
        Event.connect (k.vault_addr.getD "") (k.vault_token.getD "") ::
          (read_from_vault st sp (k.vault_addr.getD "") (k.vault_token.getD "")).1 := by
      simp [kv_copy_path, hm, hcp, hrfv]
    constructor
    · simp [kv_copy_path, hm, hcp, hrfv]
    · rw [hev, writesOf_connect, writesOf_rfv]

/-- C3 witness: a concrete Copy Path invocation against an empty store. -/
theorem kv_copy_path_rejects_empty_and_singleton_witness :
    copyMissing cPathArgs = [] ∧ cPathArgs.copy_path = some ("app", "dst/root") ∧
    ((secrets_tree_list [] "app" [] = [] →
      (kv_copy_path cPathArgs []).result = .error (.attributeError "No path to copy") ∧
      writesOf (kv_copy_path cPathArgs []).events = []) ∧
    (dedupFirst (secrets_tree_list [] "app" []) = ["app"] →
      (kv_copy_path cPathArgs []).result = .error (.attributeError
        "--copy-path should not be used to copy individual secrets. Use --copy-secret instead") ∧
      writesOf (kv_copy_path cPathArgs []).events = [])) :=
  ⟨by decide, by decide,
   kv_copy_path_rejects_empty_and_singleton cPathArgs [] "app" "dst/root" (by decide) (by decide)⟩

/-- C2: for every leaf in the snapshot taken at the source root, Copy Path
writes exactly one document, at the destination root followed by the
segment-wise suffix of the leaf relative to the source root, and the
document written is exactly the document read at the leaf; these are all the
writes performed. -/
theorem kv_copy_path_suffix_preserving (k : KwArgs) (st : Store) (sp dp a t : String)
    (hm : copyMissing k = []) (hcp : k.copy_path = some (sp, dp))
    (ha : a = k.vault_addr.getD "") (ht : t = k.vault_token.getD "")
    (hne : (read_from_vault st sp a t).2.length ≠ 0)
    (hns : ¬((read_from_vault st sp a t).2.length = 1 ∧
             ((read_from_vault st sp a t).2.map Prod.fst).head? = some sp)) :
    writesOf (kv_copy_path k st).events =
      (read_from_vault st sp a t).2.map (fun pd =>
        Event.writeEv a t
          (list_to_string (splitSeg dp ++ (splitSeg pd.1).drop (splitSeg sp).length))
          pd.2) ∧
    (∀ pd ∈ (read_from_vault st sp a t).2,
      pd.2 = read_secret st pd.1 ∧ pd.1 ∈ secrets_tree_list st sp []) := by
  subst ha ht
  constructor
  · have hev : (kv_copy_path k st).events =
        Event.connect (k.vault_addr.getD "") (k.vault_token.getD "") ::
          ((read_from_vault st sp (k.vault_addr.getD "") (k.vault_token.getD "")).1 ++
            [Event.connect (k.vault_addr.getD "") (k.vault_token.getD "")] ++
            (push_to_vault (k.vault_addr.getD "") (k.vault_token.getD "") sp
              (read_from_vault st sp (k.vault_addr.getD "") (k.vault_token.getD "")).2 dp st).1) := by
      unfold kv_copy_path
      rw [hcp]
      simp only [Option.getD_some]
      rw [if_neg (by simpa using hm), if_neg (by simpa using hne), if_neg hns]
    rw [hev, writesOf_connect, writesOf_append, writesOf_append, writesOf_rfv,
        push_to_vault_eq]
    simp only [List.nil_append]
    rw [show writesOf [Event.connect (k.vault_addr.getD "") (k.vault_token.getD "")] = []
          from rfl]
    simp only [List.nil_append]
    exact writesOf_writeEvs _ _ _ _
  · intro pd hpd
    have h2 : (read_from_vault st sp (k.vault_addr.getD "") (k.vault_token.getD "")).2 =
        (dedupFirst (secrets_tree_list st sp [])).map (fun p => (p, read_secret st p)) := rfl
    rw [h2] at hpd
    rcases List.mem_map.mp hpd with ⟨p, hp, rfl⟩
    exact ⟨rfl, (mem_dedupFirst _ _).mp hp⟩

/-- C2 witness: a concrete Copy Path invocation copying two leaves under
`app` to `dst/root`. -/
theorem kv_copy_path_suffix_preserving_witness :
    copyMissing cPathArgs = [] ∧ cPathArgs.copy_path = some ("app", "dst/root") ∧
    (read_from_vault cStore2 "app" "http://source:8200" "stoken").2.length ≠ 0 ∧
    ¬((read_from_vault cStore2 "app" "http://source:8200" "stoken").2.length = 1 ∧
      ((read_from_vault cStore2 "app" "http://source:8200" "stoken").2.map Prod.fst).head? =
        some "app") ∧
    (writesOf (kv_copy_path cPathArgs cStore2).events =
      (read_from_vault cStore2 "app" "http://source:8200" "stoken").2.map (fun pd =>
        Event.writeEv "http://source:8200" "stoken"
          (list_to_string
            (splitSeg "dst/root" ++ (splitSeg pd.1).drop (splitSeg "app").length))
          pd.2) ∧
     (∀ pd ∈ (read_from_vault cStore2 "app" "http://source:8200" "stoken").2,
       pd.2 = read_secret cStore2 pd.1 ∧ pd.1 ∈ secrets_tree_list cStore2 "app" [])) :=
  ⟨by decide, by decide, by decide, by decide,
   kv_copy_path_suffix_preserving cPathArgs cStore2 "app" "dst/root"
     "http://source:8200" "stoken" (by decide) (by decide) (by decide) (by decide)
     (by decide) (by decide)⟩

/-- C8: with a required connection argument absent, every operation raises a
`ValueError` naming exactly the missing arguments while performing no store
call at all — no connect, list, read, write or delete event appears; the
final conjunct relates the reported names to the individual missing
arguments. -/
theorem missing_args_abort_before_store_calls (k1 k2 : KwArgs) (st1 st2 : Store)
    (hb : baseMissing k1 ≠ []) (hc : copyMissing k2 ≠ []) :
    ((kv_delete k1 st1).events = [] ∧
     (kv_delete k1 st1).result = .error (.valueError (baseMissing k1)) ∧
     (kv_count k1 st1).1 = [] ∧
     (kv_count k1 st1).2 = .error (.valueError (baseMissing k1)) ∧
     (kv_find_duplicates k1 st1).1 = [] ∧
     (kv_find_duplicates k1 st1).2 = .error (.valueError (baseMissing k1)) ∧
     (kv_secrets_tree k1 st1).1 = [] ∧
     (kv_secrets_tree k1 st1).2 = .error (.valueError (baseMissing k1))) ∧
    ((kv_copy_path k2 st2).events = [] ∧
     (kv_copy_path k2 st2).result = .error (.valueError (copyMissing k2)) ∧
     (kv_copy_secret k2 st2).events = [] ∧
     (kv_copy_secret k2 st2).result = .error (.valueError (copyMissing k2))) ∧
    (∀ k : KwArgs,
      ("vault-addr" ∈ baseMissing k ↔ addrMissing k.vault_addr = true) ∧
      ("vault-token" ∈ baseMissing k ↔ tokenMissing k.vault_token = true) ∧
      ("vault-target-addr" ∈ copyMissing k ↔ addrMissing k.vault_target_addr = true) ∧
      ("vault-target-token" ∈ copyMissing k ↔ tokenMissing k.vault_target_token = true)) := by
  have hb0 : (baseMissing k1).length ≠ 0 := by
    intro h0
    exact hb (List.length_eq_zero.mp h0)
  have hc0 : (copyMissing k2).length ≠ 0 := by
    intro h0
    exact hc (List.length_eq_zero.mp h0)
  refine ⟨?_, ?_, ?_⟩
  · exact ⟨by simp [kv_delete, hb0], by simp [kv_delete, hb0],
      by simp [kv_count, hb0], by simp [kv_count, hb0],
      by simp [kv_find_duplicates, hb0], by simp [kv_find_duplicates, hb0],
      by simp [kv_secrets_tree, hb0], by simp [kv_secrets_tree, hb0]⟩
  · exact ⟨by simp [kv_copy_path, hc0], by simp [kv_copy_path, hc0],
      by simp [kv_copy_secret, hc0], by simp [kv_copy_secret, hc0]⟩
  · intro k
    refine ⟨?_, ?_, ?_, ?_⟩
    · cases ha : addrMissing k.vault_addr <;>
        cases ht : tokenMissing k.vault_token <;>
          simp [baseMissing, ha, ht]
    · cases ha : addrMissing k.vault_addr <;>
        cases ht : tokenMissing k.vault_token <;>
          simp [baseMissing, ha, ht]
    · cases ha : addrMissing k.vault_addr <;>
        cases ht : tokenMissing k.vault_token <;>
          cases hta : addrMissing k.vault_target_addr <;>
            cases htt : tokenMissing k.vault_target_token <;>
              simp [copyMissing, baseMissing, ha, ht, hta, htt]
    · cases ha : addrMissing k.vault_addr <;>
        cases ht : tokenMissing k.vault_token <;>
          cases hta : addrMissing k.vault_target_addr <;>
            cases htt : tokenMissing k.vault_target_token <;>
              simp [copyMissing, baseMissing, ha, ht, hta, htt]

/-- C8 witness: a concrete invocation with the address argument absent. -/
theorem missing_args_abort_before_store_calls_witness :
    baseMissing ⟨none, some "t", none, none, none, none, none, none, none, none, none⟩ ≠ [] ∧
    copyMissing ⟨none, some "t", none, none, none, none, none, none, none, none, none⟩ ≠ [] ∧
    (kv_delete ⟨none, some "t", none, none, none, none, none, none, none, none, none⟩ []).events = [] ∧
    (kv_delete ⟨none, some "t", none, none, none, none, none, none, none, none, none⟩ []).result =
      .error (.valueError ["vault-addr"]) ∧
    (kv_copy_secret ⟨none, some "t", none, none, none, none, none, none, none, none, none⟩ []).result =
      .error (.valueError ["vault-addr", "vault-target-addr", "vault-target-token"]) := by
  have h := missing_args_abort_before_store_calls
    ⟨none, some "t", none, none, none, none, none, none, none, none, none⟩
    ⟨none, some "t", none, none, none, none, none, none, none, none, none⟩
    [] [] (by decide) (by decide)
  refine ⟨by decide, by decide, h.1.1, ?_, ?_⟩
  · have h2 := h.1.2.1
    rw [h2]
    decide
  · have h2 := h.2.1.2.2.2
    rw [h2]
    decide

/-- C5: for every requested root, Count reports `secrets_count` equal to the
number of leaves listed under that root after exclusion and `values_count`
equal to the sum of the number of keys of each such leaf's document, and the
grand totals are the sums of the per-root counts. -/
theorem kv_count_totals (k : KwArgs) (st : Store) (roots ex : List String)
    (hm : baseMissing k = []) (hc : k.count = some roots)
    (hex : ex = k.exclude.getD []) :
    (kv_count k st).2 = .ok
      ⟨roots.map (fun r =>
         (r, (secrets_tree_list st r ex).length,
          ((secrets_tree_list st r ex).map (fun p => (read_secret st p).length)).sum)),
       (roots.map (fun r => (secrets_tree_list st r ex).length)).sum,
       (roots.map (fun r =>
         ((secrets_tree_list st r ex).map (fun p => (read_secret st p).length)).sum)).sum⟩ := by
  subst hex
  have hm0 : ¬((baseMissing k).length ≠ 0) := by simp [hm]
  unfold kv_count
  rw [if_neg hm0, hc]
  simp only [Option.getD_some]
  rw [countRoots_spec]
  simp

/-- C5 witness: the spec example — root `app` with leaves `app/db` (two
keys) and `app/api` (one key) counts 2 secrets and 3 values. -/
theorem kv_count_totals_witness :
    baseMissing ⟨some "a", some "t", none, none, none, none, none, some ["app"], none, none, none⟩ = [] ∧
    (kv_count ⟨some "a", some "t", none, none, none, none, none, some ["app"], none, none, none⟩
        [("app/db", [("user", "a"), ("pass", "b")]), ("app/api", [("key", "x")])]).2 =
      .ok ⟨[("app", 2, 3)], 2, 3⟩ := by
  have h := kv_count_totals
    ⟨some "a", some "t", none, none, none, none, none, some ["app"], none, none, none⟩
    [("app/db", [("user", "a"), ("pass", "b")]), ("app/api", [("key", "x")])]
    ["app"] [] (by decide) (by decide) (by decide)
  refine ⟨by decide, ?_⟩
  rw [h]
  decide

/-- C1 (code bug): in both Copy Secret and Copy Path with all four
connection arguments present, the client performing the destination write is
authenticated with `vault_addr`/`vault_token` — the source credentials — and
the target credentials `vault_target_addr`/`vault_target_token` are never
used to connect, contradicting the module's own help text that the target
token is used for the target address. -/
theorem copy_target_client_uses_source_credentials :
    cSecretArgs.vault_target_addr = some "http://target:8200" ∧
    cSecretArgs.vault_target_token = some "ttoken" ∧
    writesOf (kv_copy_secret cSecretArgs cStore1).events =
      [Event.writeEv "http://source:8200" "stoken" "app/b" [("k", "v")]] ∧
    Event.connect "http://target:8200" "ttoken" ∉ (kv_copy_secret cSecretArgs cStore1).events ∧
    cPathArgs.vault_target_addr = some "http://target:8200" ∧
    cPathArgs.vault_target_token = some "ttoken" ∧
    writesOf (kv_copy_path cPathArgs cStore2).events =
      [Event.writeEv "http://source:8200" "stoken" "dst/root/a" [("k", "v")],
       Event.writeEv "http://source:8200" "stoken" "dst/root/b" [("k2", "v2")]] ∧
    Event.connect "http://target:8200" "ttoken" ∉ (kv_copy_path cPathArgs cStore2).events := by
  decide

lemma deleteRoots_cons_empty (a t r : String) (rest : List String) (evs : List Event) (st : Store)
    (h : secrets_tree_list st r [] = []) :
    deleteRoots a t (r :: rest) (evs, st) =
      deleteRoots a t rest
        (evs ++ (read_from_vault st r a t).1 ++
          [Event.logErr ("No secrets to delete at " ++ r)], st) := by
  have h2 : (read_from_vault st r a t).2 = [] := by
    simp [read_from_vault, h, dedupFirst]
  simp only [deleteRoots]
  rw [if_neg (by simp [h2])]

lemma deleteRoots_cons_nonempty (a t r : String) (rest : List String) (evs : List Event)
    (st : Store) (h : secrets_tree_list st r [] ≠ []) :
    deleteRoots a t (r :: rest) (evs, st) =
      deleteRoots a t rest
        (evs ++ (read_from_vault st r a t).1 ++
          ((dedupFirst (secrets_tree_list st r [])).map (fun p => Event.deleteEv a t p)),
         (dedupFirst (secrets_tree_list st r [])).foldl (fun s p => deleteStore s p) st) := by
  have hd2 : (read_from_vault st r a t).2.map Prod.fst =
      dedupFirst (secrets_tree_list st r []) := by
    show List.map Prod.fst
      ((dedupFirst (secrets_tree_list st r [])).map (fun p => (p, read_secret st p))) =
        dedupFirst (secrets_tree_list st r [])
    rw [List.map_map]
    exact List.map_id _ ▸ List.map_congr_left (fun p _ => rfl)
  have hlen : (read_from_vault st r a t).2.length =
      (dedupFirst (secrets_tree_list st r [])).length := by
    simp [read_from_vault]
  have hddne : dedupFirst (secrets_tree_list st r []) ≠ [] := by
    intro hc
    exact h ((dedupFirst_eq_nil _).mp hc)
  have hne : (read_from_vault st r a t).2.length ≠ 0 := by
    rw [hlen]
    intro hc
    exact hddne (List.length_eq_zero.mp hc)
  simp only [deleteRoots]
  rw [if_pos hne, delete_from_vault_eq, hd2]

lemma kv_delete_run (k : KwArgs) (roots : List String) (s : Store)
    (hm : baseMissing k = []) (hd : k.delete = some roots) :
    kv_delete k s =
      ⟨(deleteRoots (k.vault_addr.getD "") (k.vault_token.getD "") roots
          ([Event.connect (k.vault_addr.getD "") (k.vault_token.getD "")], s)).1,
       .ok ((deleteRoots (k.vault_addr.getD "") (k.vault_token.getD "") roots
          ([Event.connect (k.vault_addr.getD "") (k.vault_token.getD "")], s)).2)⟩ := by
  unfold kv_delete
  rw [if_neg (by simp [hm]), hd]
  rfl

/-- C7: Delete Subtree treats an empty snapshot as non-fatal — it logs a
nothing-to-delete report and continues with the remaining roots — while a
non-empty snapshot has every listed leaf deleted, leaving no leaf under the
root; consequently a second run on the same single root succeeds and reports
nothing to delete instead of erroring. -/
theorem kv_delete_idempotent_nonfatal (k : KwArgs) (st : Store) (r : String) (rest : List String)
    (hm : baseMissing k = []) (hd : k.delete = some (r :: rest)) :
    (secrets_tree_list st r [] = [] →
      (kv_delete k st).result = (kv_delete { k with delete := some rest } st).result ∧
      Event.logErr ("No secrets to delete at " ++ r) ∈ (kv_delete k st).events) ∧
    (secrets_tree_list st r [] ≠ [] →
      ∃ st1, (kv_delete k st).result = (kv_delete { k with delete := some rest } st1).result ∧
        (∀ p ∈ secrets_tree_list st r [], ∀ d, (p, d) ∉ st1) ∧
        secrets_tree_list st1 r [] = []) ∧
    (rest = [] →
      ∃ st2, (kv_delete k st).result = .ok st2 ∧
        secrets_tree_list st2 r [] = [] ∧
        (kv_delete k st2).result = .ok st2 ∧
        Event.logErr ("No secrets to delete at " ++ r) ∈ (kv_delete k st2).events) := by
  have hmr : baseMissing { k with delete := some rest } = [] := hm
  have hdr : ({ k with delete := some rest } : KwArgs).delete = some rest := rfl
  have hrun := kv_delete_run k (r :: rest) st hm hd
  have hrunR : ∀ s : Store, kv_delete { k with delete := some rest } s =
      ⟨(deleteRoots (k.vault_addr.getD "") (k.vault_token.getD "") rest
          ([Event.connect (k.vault_addr.getD "") (k.vault_token.getD "")], s)).1,
       .ok ((deleteRoots (k.vault_addr.getD "") (k.vault_token.getD "") rest
          ([Event.connect (k.vault_addr.getD "") (k.vault_token.getD "")], s)).2)⟩ :=
    fun s => kv_delete_run { k with delete := some rest } rest s hmr hdr
  refine ⟨?_, ?_, ?_⟩
  · intro hempty
    have hstep := deleteRoots_cons_empty (k.vault_addr.getD "") (k.vault_token.getD "")
      r rest [Event.connect (k.vault_addr.getD "") (k.vault_token.getD "")] st hempty
    constructor
    · rw [hrun, hrunR st]
      show Except.ok (deleteRoots _ _ (r :: rest) _).2 = Except.ok (deleteRoots _ _ rest _).2
      rw [hstep]
      exact congrArg Except.ok (deleteRoots_store_indep _ _ rest _ _ st)
    · rw [hrun]
      show Event.logErr ("No secrets to delete at " ++ r) ∈
        (deleteRoots _ _ (r :: rest) _).1
      rw [hstep]
      exact deleteRoots_events_mono _ _ rest _ st _ (by simp)
  · intro hne
    refine ⟨(dedupFirst (secrets_tree_list st r [])).foldl (fun s p => deleteStore s p) st,
      ?_, ?_, ?_⟩
    · have hstep := deleteRoots_cons_nonempty (k.vault_addr.getD "") (k.vault_token.getD "")
        r rest [Event.connect (k.vault_addr.getD "") (k.vault_token.getD "")] st hne
      rw [hrun, hrunR]
      show Except.ok (deleteRoots _ _ (r :: rest) _).2 = Except.ok (deleteRoots _ _ rest _).2
      rw [hstep]
      exact congrArg Except.ok (deleteRoots_store_indep _ _ rest _ _ _)
    · intro p hp d hmem
      rcases mem_foldl_deleteStore p d _ st hmem with ⟨_, hnot⟩
      exact hnot ((mem_dedupFirst _ _).mpr hp)
    · exact stl_foldl_delete_self st r
  · rintro rfl
    by_cases hempty : secrets_tree_list st r [] = []
    · refine ⟨st, ?_, hempty, ?_, ?_⟩
      · rw [hrun]
        show Except.ok (deleteRoots _ _ [r] _).2 = Except.ok st
        rw [deleteRoots_cons_empty _ _ r [] _ st hempty]
        rfl
      · rw [hrun]
        show Except.ok (deleteRoots _ _ [r] _).2 = Except.ok st
        rw [deleteRoots_cons_empty _ _ r [] _ st hempty]
        rfl
      · rw [hrun]
        show Event.logErr ("No secrets to delete at " ++ r) ∈ (deleteRoots _ _ [r] _).1
        rw [deleteRoots_cons_empty _ _ r [] _ st hempty]
        simp [deleteRoots]
    · set st1 := (dedupFirst (secrets_tree_list st r [])).foldl (fun s p => deleteStore s p) st
        with hst1
      have hempty1 : secrets_tree_list st1 r [] = [] := stl_foldl_delete_self st r
      refine ⟨st1, ?_, hempty1, ?_, ?_⟩
      · rw [hrun]
        show Except.ok (deleteRoots _ _ [r] _).2 = Except.ok st1
        rw [deleteRoots_cons_nonempty _ _ r [] _ st hempty]
        rfl
      · rw [kv_delete_run k [r] st1 hm hd]
        show Except.ok (deleteRoots _ _ [r] _).2 = Except.ok st1
        rw [deleteRoots_cons_empty _ _ r [] _ st1 hempty1]
        rfl
      · rw [kv_delete_run k [r] st1 hm hd]
        show Event.logErr ("No secrets to delete at " ++ r) ∈ (deleteRoots _ _ [r] _).1
        rw [deleteRoots_cons_empty _ _ r [] _ st1 hempty1]
        simp [deleteRoots]

/-- C7 witness: deleting the subtree at `app` from a store with two leaves
under it, then deleting again. -/
theorem kv_delete_idempotent_nonfatal_witness :
    baseMissing cDelArgs = [] ∧ cDelArgs.delete = some ("app" :: []) ∧
    ((secrets_tree_list cStore2 "app" [] = [] →
      (kv_delete cDelArgs cStore2).result =
        (kv_delete { cDelArgs with delete := some [] } cStore2).result ∧
      Event.logErr ("No secrets to delete at " ++ "app") ∈ (kv_delete cDelArgs cStore2).events) ∧
    (secrets_tree_list cStore2 "app" [] ≠ [] →
      ∃ st1, (kv_delete cDelArgs cStore2).result =
          (kv_delete { cDelArgs with delete := some [] } st1).result ∧
        (∀ p ∈ secrets_tree_list cStore2 "app" [], ∀ d, (p, d) ∉ st1) ∧
        secrets_tree_list st1 "app" [] = []) ∧
    (([] : List String) = [] →
      ∃ st2, (kv_delete cDelArgs cStore2).result = .ok st2 ∧
        secrets_tree_list st2 "app" [] = [] ∧
        (kv_delete cDelArgs st2).result = .ok st2 ∧
        Event.logErr ("No secrets to delete at " ++ "app") ∈ (kv_delete cDelArgs st2).events)) :=
  ⟨by decide, by decide,
   kv_delete_idempotent_nonfatal cDelArgs cStore2 "app" [] (by decide) (by decide)⟩

/-- C6: the Duplicate Detector groups the gathered `(path, key, value)`
triples by exact value equality; every emitted group has at least two
members, is exactly the locator list of one value's occurrences, every
value occurring at least twice yields its group, and the locator of a
triple whose value occurs exactly once appears in no emitted group
(locators are assumed to identify triples uniquely). -/
theorem kv_find_duplicates_groups (k : KwArgs) (st : Store) (roots ex : List String)
    (ts : List (String × String × String))
    (hm : baseMissing k = []) (hf : k.find_duplicates = some roots)
    (hex : ex = k.exclude.getD []) (hts : ts = dupTriples st ex roots)
    (hinj : ∀ t1 ∈ ts, ∀ t2 ∈ ts, locator t1 = locator t2 → t1 = t2) :
    ∃ groups, (kv_find_duplicates k st).2 = .ok groups ∧
      (∀ g ∈ groups, 2 ≤ g.length) ∧
      (∀ g ∈ groups, ∃ v, g = valueGroup ts v ∧
        2 ≤ (ts.filter (fun t2 => t2.2.2 == v)).length) ∧
      (∀ v, 2 ≤ (ts.filter (fun t2 => t2.2.2 == v)).length → valueGroup ts v ∈ groups) ∧
      (∀ tr ∈ ts, (ts.filter (fun t2 => t2.2.2 == tr.2.2)).length = 1 →
        ∀ g ∈ groups, locator tr ∉ g) := by
  subst hex
  subst hts
  have hok : (kv_find_duplicates k st).2 =
      .ok (((values_count (dupTriples st (k.exclude.getD []) roots)).filter
        (fun e => 1 < e.2.length)).map Prod.snd) := by
    unfold kv_find_duplicates
    rw [if_neg (by simp [hm]), hf]
    rfl
  have hnodup := nodup_keys_values_count (dupTriples st (k.exclude.getD []) roots)
  have hlook := lookupVC_values_count (dupTriples st (k.exclude.getD []) roots)
  have hglen : ∀ v, (valueGroup (dupTriples st (k.exclude.getD []) roots) v).length =
      ((dupTriples st (k.exclude.getD []) roots).filter (fun t2 => t2.2.2 == v)).length := by
    intro v
    simp [valueGroup]
  refine ⟨_, hok, ?_, ?_, ?_, ?_⟩
  · intro g hg
    rcases List.mem_map.mp hg with ⟨e, he, rfl⟩
    have h2 : 1 < e.2.length := by simpa using (List.mem_filter.mp he).2
    omega
  · intro g hg
    rcases List.mem_map.mp hg with ⟨e, he, rfl⟩
    have hev : e ∈ values_count (dupTriples st (k.exclude.getD []) roots) :=
      (List.mem_filter.mp he).1
    have h2 : 1 < e.2.length := by simpa using (List.mem_filter.mp he).2
    have hq : e.2 = valueGroup (dupTriples st (k.exclude.getD []) roots) e.1 := by
      rw [← hlook e.1]
      exact (mem_vc_lookup _ hnodup e hev).symm
    refine ⟨e.1, hq, ?_⟩
    have := hglen e.1
    rw [hq] at h2
    omega
  · intro v hv
    have hgne : valueGroup (dupTriples st (k.exclude.getD []) roots) v ≠ [] := by
      intro hc
      have hl := hglen v
      rw [hc] at hl
      simp at hl
      omega
    have hlv : lookupVC (values_count (dupTriples st (k.exclude.getD []) roots)) v ≠ [] := by
      rw [hlook]
      exact hgne
    rcases lookupVC_ne_nil _ v hlv with ⟨e, hev, hkey, hval⟩
    have he2 : e.2 = valueGroup (dupTriples st (k.exclude.getD []) roots) v := by
      rw [hval, hlook]
    have hflt : e ∈ (values_count (dupTriples st (k.exclude.getD []) roots)).filter
        (fun e => 1 < e.2.length) := by
      refine List.mem_filter.mpr ⟨hev, ?_⟩
      have hl := hglen v
      rw [he2]
      simp only [decide_eq_true_eq]
      omega
    exact List.mem_map.mpr ⟨e, hflt, he2⟩
  · intro tr htr h1 g hg hmem
    rcases List.mem_map.mp hg with ⟨e, he, rfl⟩
    have hev : e ∈ values_count (dupTriples st (k.exclude.getD []) roots) :=
      (List.mem_filter.mp he).1
    have h2 : 1 < e.2.length := by simpa using (List.mem_filter.mp he).2
    have hq : e.2 = valueGroup (dupTriples st (k.exclude.getD []) roots) e.1 := by
      rw [← hlook e.1]
      exact (mem_vc_lookup _ hnodup e hev).symm
    rw [hq] at hmem
    rcases List.mem_map.mp hmem with ⟨t2, ht2, heq⟩
    have ht2m := List.mem_filter.mp ht2
    have hteq : t2 = tr := hinj t2 ht2m.1 tr htr heq
    have hvv : tr.2.2 = e.1 := by
      rw [← hteq]
      exact eq_of_beq (by simpa using ht2m.2)
    rw [hq, hglen] at h2
    rw [← hvv] at h2
    omega

/-- C6 witness: on the spec example the grouping properties hold for the
concrete gathered triples. -/
theorem kv_find_duplicates_groups_witness :
    baseMissing cDupArgs = [] ∧ cDupArgs.find_duplicates = some ["x"] ∧
    (∀ t1 ∈ dupTriples cDupStore [] ["x"], ∀ t2 ∈ dupTriples cDupStore [] ["x"],
      locator t1 = locator t2 → t1 = t2) ∧
    (∃ groups, (kv_find_duplicates cDupArgs cDupStore).2 = .ok groups ∧
      (∀ g ∈ groups, 2 ≤ g.length) ∧
      (∀ g ∈ groups, ∃ v, g = valueGroup (dupTriples cDupStore [] ["x"]) v ∧
        2 ≤ ((dupTriples cDupStore [] ["x"]).filter (fun t2 => t2.2.2 == v)).length) ∧
      (∀ v, 2 ≤ ((dupTriples cDupStore [] ["x"]).filter (fun t2 => t2.2.2 == v)).length →
        valueGroup (dupTriples cDupStore [] ["x"]) v ∈ groups) ∧
      (∀ tr ∈ dupTriples cDupStore [] ["x"],
        ((dupTriples cDupStore [] ["x"]).filter (fun t2 => t2.2.2 == tr.2.2)).length = 1 →
        ∀ g ∈ groups, locator tr ∉ g)) :=
  ⟨by decide, by decide, by decide,
   kv_find_duplicates_groups cDupArgs cDupStore ["x"] [] (dupTriples cDupStore [] ["x"])
     (by decide) (by decide) (by decide) (by decide) (by decide)⟩

/-- C4 counterexample: a Copy Secret invocation with all four connection
arguments whose source secret exists in the store but holds the empty
document does not propagate out of `run` — the `AttributeError` raised at
the length check is caught and only logged, so the outcome is not a raised
failure as the claim states. -/
theorem run_catches_empty_document_counterexample :
    ("app/a", ([] : Doc)) ∈ cEmptyDocStore ∧
    read_secret cEmptyDocStore "app/a" = [] ∧
    (run cSecretArgs cEmptyDocStore).2 = RunOutcome.loggedError
      ("app/a" ++ " is not a valid secret. If you are trying to copy a path, use --copy-path instead") ∧
    ∀ l : List String, (run cSecretArgs cEmptyDocStore).2 ≠ RunOutcome.raised l := by
  have h0 : (run cSecretArgs cEmptyDocStore).2 = RunOutcome.loggedError
      ("app/a" ++ " is not a valid secret. If you are trying to copy a path, use --copy-path instead") := by
    decide
  refine ⟨by decide, by decide, h0, ?_⟩
  intro l h
  rw [h0] at h
  exact RunOutcome.noConfusion h

/-- C4 (amended): a missing required connection argument raises a
`ValueError` that propagates out of `run`; an existing source secret whose
document is empty raises an `AttributeError` that `run` catches and only
logs; and a Delete root with nothing to act on is only logged, with the
operation completing normally.  A source path absent from the store is
outside this statement: there the store client's read fails with its own
NotFound error, which is no `AttributeError`. -/
theorem run_propagation_amended
    (k1 k2 k3 : KwArgs) (st1 st2 st3 : Store) (sp dp r : String)
    (h1a : truthyPair k1.copy_path = false) (h1b : truthyPair k1.copy_secret = true)
    (h1c : copyMissing k1 ≠ [])
    (h2a : truthyPair k2.copy_path = false) (h2b : k2.copy_secret = some (sp, dp))
    (h2c : copyMissing k2 = []) (h2d : read_secret st2 sp = [])
    (_h2e : (sp, ([] : Doc)) ∈ st2)
    (h3a : truthyPair k3.copy_path = false) (h3b : truthyPair k3.copy_secret = false)
    (h3c : k3.delete = some [r]) (h3d : baseMissing k3 = [])
    (h3e : secrets_tree_list st3 r [] = []) :
    (run k1 st1).2 = .raised (copyMissing k1) ∧
    (run k2 st2).2 = .loggedError
      (sp ++ " is not a valid secret. If you are trying to copy a path, use --copy-path instead") ∧
    ((run k3 st3).2 = .completed st3 ∧
     Event.logErr ("No secrets to delete at " ++ r) ∈ (run k3 st3).1) := by
  refine ⟨?_, ?_, ?_⟩
  · have hop : opAny k1 = true := by
      simp [opAny, h1b]
    have hc0 : (copyMissing k1).length ≠ 0 := by
      intro h0
      exact h1c (List.length_eq_zero.mp h0)
    unfold run
    rw [if_neg (show ¬((!opAny k1) = true) by simp [hop]),
        if_neg (show ¬(truthyPair k1.copy_path = true) by simp [h1a]),
        if_pos h1b]
    simp [toRun, kv_copy_secret, hc0]
  · have h2b2 : truthyPair k2.copy_secret = true := by rw [h2b]; rfl
    have hop : opAny k2 = true := by
      simp [opAny, h2b2]
    unfold run
    rw [if_neg (show ¬((!opAny k2) = true) by simp [hop]),
        if_neg (show ¬(truthyPair k2.copy_path = true) by simp [h2a]),
        if_pos h2b2]
    simp [toRun, kv_copy_secret, h2c, h2b, h2d]
  · have h3c2 : truthyList k3.delete = true := by rw [h3c]; rfl
    have hop : opAny k3 = true := by
      simp [opAny, h3c2]
    have hrun := kv_delete_run k3 [r] st3 h3d h3c
    have hstep := deleteRoots_cons_empty (k3.vault_addr.getD "") (k3.vault_token.getD "")
      r [] [Event.connect (k3.vault_addr.getD "") (k3.vault_token.getD "")] st3 h3e
    have hre : run k3 st3 = toRun (kv_delete k3 st3) := by
      unfold run
      rw [if_neg (show ¬((!opAny k3) = true) by simp [hop]),
          if_neg (show ¬(truthyPair k3.copy_path = true) by simp [h3a]),
          if_neg (show ¬(truthyPair k3.copy_secret = true) by simp [h3b]),
          if_pos h3c2]
    rw [hre, hrun]
    constructor
    · show (match (Except.ok (deleteRoots _ _ [r] _).2 : Except VMError Store) with
        | .ok st => RunOutcome.completed st
        | .error (.valueError l) => RunOutcome.raised l
        | .error (.attributeError m) => RunOutcome.loggedError m) = RunOutcome.completed st3
      rw [hstep]
      rfl
    · show Event.logErr ("No secrets to delete at " ++ r) ∈ (deleteRoots _ _ [r] _).1
      rw [hstep]
      simp [deleteRoots]

/-- C4 witness: concrete invocations for each of the three amended
behaviors; the logged-only case reads an existing secret with an empty
document. -/
theorem run_propagation_amended_witness :
    copyMissing cNoTargetArgs ≠ [] ∧
    ("app/a", ([] : Doc)) ∈ cEmptyDocStore ∧
    read_secret cEmptyDocStore "app/a" = [] ∧
    secrets_tree_list [] "app" [] = [] ∧
    ((run cNoTargetArgs []).2 = .raised (copyMissing cNoTargetArgs) ∧
     (run cSecretArgs cEmptyDocStore).2 = .loggedError
       ("app/a" ++ " is not a valid secret. If you are trying to copy a path, use --copy-path instead") ∧
     ((run cDelArgs []).2 = .completed [] ∧
      Event.logErr ("No secrets to delete at " ++ "app") ∈ (run cDelArgs []).1)) :=
  ⟨by decide, by decide, by decide, by decide,
   run_propagation_amended cNoTargetArgs cSecretArgs cDelArgs [] cEmptyDocStore []
     "app/a" "app/b" "app"
     (by decide) (by decide) (by decide) (by decide) (by decide) (by decide) (by decide)
     (by decide) (by decide) (by decide) (by decide) (by decide) (by decide)⟩

/-- C10: `run` executes at most one operation — the first truthy operation
flag in the fixed priority order copy-path, copy-secret, delete, count,
find-duplicates, secrets-tree — and with no operation flag supplied it
returns help-shown with an empty trace, making no store call. -/
theorem run_dispatch_priority
    (k0 k1 k2 k3 k4 k5 k6 : KwArgs) (st0 st1 st2 st3 st4 st5 st6 : Store)
    (h0 : opAny k0 = false)
    (h1 : truthyPair k1.copy_path = true)
    (h2a : truthyPair k2.copy_path = false) (h2b : truthyPair k2.copy_secret = true)
    (h3a : truthyPair k3.copy_path = false) (h3b : truthyPair k3.copy_secret = false)
    (h3c : truthyList k3.delete = true)
    (h4a : truthyPair k4.copy_path = false) (h4b : truthyPair k4.copy_secret = false)
    (h4c : truthyList k4.delete = false) (h4d : truthyList k4.count = true)
    (h5a : truthyPair k5.copy_path = false) (h5b : truthyPair k5.copy_secret = false)
    (h5c : truthyList k5.delete = false) (h5d : truthyList k5.count = false)
    (h5e : truthyList k5.find_duplicates = true)
    (h6a : truthyPair k6.copy_path = false) (h6b : truthyPair k6.copy_secret = false)
    (h6c : truthyList k6.delete = false) (h6d : truthyList k6.count = false)
    (h6e : truthyList k6.find_duplicates = false) (h6f : truthyList k6.secrets_tree = true) :
    run k0 st0 = ([], .helpShown) ∧
    run k1 st1 = toRun (kv_copy_path k1 st1) ∧
    run k2 st2 = toRun (kv_copy_secret k2 st2) ∧
    run k3 st3 = toRun (kv_delete k3 st3) ∧
    run k4 st4 = toRunPure st4 (kv_count k4 st4) ∧
    run k5 st5 = toRunPure st5 (kv_find_duplicates k5 st5) ∧
    run k6 st6 = toRunPure st6 (kv_secrets_tree k6 st6) := by
  refine ⟨?_, ?_, ?_, ?_, ?_, ?_, ?_⟩
  · unfold run
    rw [if_pos (show (!opAny k0) = true by simp [h0])]
  · have hop : opAny k1 = true := by simp [opAny, h1]
    unfold run
    rw [if_neg (show ¬((!opAny k1) = true) by simp [hop]), if_pos h1]
  · have hop : opAny k2 = true := by simp [opAny, h2b]
    unfold run
    rw [if_neg (show ¬((!opAny k2) = true) by simp [hop]),
        if_neg (show ¬(truthyPair k2.copy_path = true) by simp [h2a]), if_pos h2b]
  · have hop : opAny k3 = true := by simp [opAny, h3c]
    unfold run
    rw [if_neg (show ¬((!opAny k3) = true) by simp [hop]),
        if_neg (show ¬(truthyPair k3.copy_path = true) by simp [h3a]),
        if_neg (show ¬(truthyPair k3.copy_secret = true) by simp [h3b]), if_pos h3c]
  · have hop : opAny k4 = true := by simp [opAny, h4d]
    unfold run
    rw [if_neg (show ¬((!opAny k4) = true) by simp [hop]),
        if_neg (show ¬(truthyPair k4.copy_path = true) by simp [h4a]),
        if_neg (show ¬(truthyPair k4.copy_secret = true) by simp [h4b]),
        if_neg (show ¬(truthyList k4.delete = true) by simp [h4c]), if_pos h4d]
  · have hop : opAny k5 = true := by simp [opAny, h5e]
    unfold run
    rw [if_neg (show ¬((!opAny k5) = true) by simp [hop]),
        if_neg (show ¬(truthyPair k5.copy_path = true) by simp [h5a]),
        if_neg (show ¬(truthyPair k5.copy_secret = true) by simp [h5b]),
        if_neg (show ¬(truthyList k5.delete = true) by simp [h5c]),
        if_neg (show ¬(truthyList k5.count = true) by simp [h5d]), if_pos h5e]
  · have hop : opAny k6 = true := by simp [opAny, h6f]
    unfold run
    rw [if_neg (show ¬((!opAny k6) = true) by simp [hop]),
        if_neg (show ¬(truthyPair k6.copy_path = true) by simp [h6a]),
        if_neg (show ¬(truthyPair k6.copy_secret = true) by simp [h6b]),
        if_neg (show ¬(truthyList k6.delete = true) by simp [h6c]),
        if_neg (show ¬(truthyList k6.count = true) by simp [h6d]),
        if_neg (show ¬(truthyList k6.find_duplicates = true) by simp [h6e]), if_pos h6f]

/-- C10 witness: one concrete invocation per dispatch case, including an
invocation carrying several operation flags at once where only Copy Path
runs. -/
theorem run_dispatch_priority_witness :
    opAny ⟨none, none, none, none, none, none, none, none, none, none, none⟩ = false ∧
    truthyPair (⟨some "a", some "t", some "b", some "u",
      some ("app", "dst"), some ("x", "y"), some ["d"], some ["c"], some ["f"], some ["s"],
      none⟩ : KwArgs).copy_path = true ∧
    (run ⟨none, none, none, none, none, none, none, none, none, none, none⟩ [] =
      ([], .helpShown) ∧
     run ⟨some "a", some "t", some "b", some "u", some ("app", "dst"), some ("x", "y"),
        some ["d"], some ["c"], some ["f"], some ["s"], none⟩ cStore2 =
      toRun (kv_copy_path ⟨some "a", some "t", some "b", some "u", some ("app", "dst"),
        some ("x", "y"), some ["d"], some ["c"], some ["f"], some ["s"], none⟩ cStore2) ∧
     run cSecretArgs cStore1 = toRun (kv_copy_secret cSecretArgs cStore1) ∧
     run cDelArgs cStore2 = toRun (kv_delete cDelArgs cStore2) ∧
     run ⟨some "a", some "t", none, none, none, none, none, some ["app"], none, none, none⟩
        cStore2 =
      toRunPure cStore2 (kv_count
        ⟨some "a", some "t", none, none, none, none, none, some ["app"], none, none, none⟩
        cStore2) ∧
     run cDupArgs cDupStore = toRunPure cDupStore (kv_find_duplicates cDupArgs cDupStore) ∧
     run ⟨some "a", some "t", none, none, none, none, none, none, none, some ["app"], none⟩
        cStore2 =
      toRunPure cStore2 (kv_secrets_tree
        ⟨some "a", some "t", none, none, none, none, none, none, none, some ["app"], none⟩
        cStore2)) :=
  ⟨by decide, by decide,
   run_dispatch_priority
     ⟨none, none, none, none, none, none, none, none, none, none, none⟩
     ⟨some "a", some "t", some "b", some "u", some ("app", "dst"), some ("x", "y"),
      some ["d"], some ["c"], some ["f"], some ["s"], none⟩
     cSecretArgs cDelArgs
     ⟨some "a", some "t", none, none, none, none, none, some ["app"], none, none, none⟩
     cDupArgs
     ⟨some "a", some "t", none, none, none, none, none, none, none, some ["app"], none⟩
     [] cStore2 cStore1 cStore2 cStore2 cDupStore cStore2
     (by decide) (by decide) (by decide) (by decide) (by decide) (by decide) (by decide)
     (by decide) (by decide) (by decide) (by decide) (by decide) (by decide) (by decide)
     (by decide) (by decide) (by decide) (by decide) (by decide) (by decide) (by decide)
     (by decide)⟩
